import Mathlib

/-!
# Block translation (package ocrcommon) and ownable contracts (package changeset)

A shallow embedding of

* `core/services/ocrcommon/block_translator.go`: the factory `NewBlockTranslator`
  and the identity strategy `l1BlockTranslator`;
* `deployment/keystone/changeset/contracts.go`: `NewOwnable`,
  `GetOwnerTypeAndVersion`, `GetOwnableContract`, `createContractInstance`.

Conventions of the embedding.

* A Go `uint64` is a `Nat` below `2^64`; the conversion `int64(x)` is written out
  with its two's complement wrap; a `*big.Int` is an `Int`.
* A Go `error` is a `String` (the rendered message); a function returning
  `(v, error)` returns `Except Error v`.
* A Go pointer or interface value that may be nil is an `Option`.
* A Go `map[string]V` is an association list; ranging over the map visits the
  list in order, so a statement for every list covers every iteration order.
-/

set_option autoImplicit false

/-- Go errors, by their rendered message. -/
abbrev Error := String

/-- The part of `context.Context` the translators can observe: `ctx.Err()`. -/
structure Context where
  /-- The value of `ctx.Err()`; `none` while the context is live. -/
  Err : Option Error
  deriving DecidableEq, Repr

/-- The structured logger handed to the constructors; purely observational. -/
structure Logger where
  /-- Name of the logger. -/
  name : String
  deriving DecidableEq, Repr

/-- Go's conversion `int64(x)` of a `uint64`: the same 64 bits read in two's
complement. -/
def int64 (x : Nat) : Int :=
  if x % 2 ^ 64 < 2 ^ 63 then ((x % 2 ^ 64 : Nat) : Int)
  else ((x % 2 ^ 64 : Nat) : Int) - 2 ^ 64

/-- The constructor `big.NewInt(x)`: the arbitrary-precision integer of value `x`. -/
def big.NewInt (x : Int) : Int := x

namespace ocrcommon

/-- The string type `chaintype.ChainType`. -/
abbrev ChainType := String

/-- The constants of package `chaintype` that `NewBlockTranslator` switches on.
The package lives outside the repository, so the values are parameters. -/
structure ChainTypes where
  ChainArbitrum : ChainType
  ChainCelo : ChainType
  ChainGnosis : ChainType
  ChainKroma : ChainType
  ChainMetis : ChainType
  ChainOptimismBedrock : ChainType
  ChainSei : ChainType
  ChainScroll : ChainType
  ChainWeMix : ChainType
  ChainXLayer : ChainType
  ChainZkEvm : ChainType
  ChainZkSync : ChainType
  ChainZircuit : ChainType
  deriving DecidableEq, Repr

/-- The interface `Config`, of which only `ChainType()` is called. -/
structure Config where
  /-- The accessor `cfg.ChainType()`. -/
  ChainType : ChainType
  deriving DecidableEq, Repr

/-- The fields of `evmtypes.Head` (an external type) a callback could read. -/
structure Head where
  Number : Int
  Hash : Nat
  ParentHash : Nat
  deriving DecidableEq, Repr

/-- Modelled from the spec: the Chain Client Adapter (section 6), the
`evmclient.Client` handed to the factory. A call fails with an error when the
remote call fails. -/
structure ChainClient where
  /-- The call `GetLocalHeight(ctx)`: the current chain head. -/
  GetLocalHeight : Context → Except Error Nat
  /-- The call `GetSettlementHeight(ctx, localHeight)`. -/
  GetSettlementHeight : Context → Nat → Except Error Nat

/-- Modelled from the spec: a CacheEntry of the search-based translator
(section 3): a resolved QueryRange and the local chain height at which it was
resolved, keyed by the emitted number. -/
structure CacheEntry where
  emitted : Nat
  fromBlock : Nat
  toBlock : Nat
  resolvedAt : Nat
  deriving DecidableEq, Repr

/-- Modelled from the spec: the state of the search-based translator
`ArbitrumBlockTranslator`, whose implementation is not among the sources: the
client and logger it was built from and its cache. -/
structure ArbitrumBlockTranslator where
  client : ChainClient
  lggr : Logger
  cache : List CacheEntry

/-- Modelled from the spec: the constructor `NewArbitrumBlockTranslator`, not
among the sources. The cache starts empty (section 5). -/
def NewArbitrumBlockTranslator (client : ChainClient) (lggr : Logger) :
    ArbitrumBlockTranslator :=
  { client := client, lggr := lggr, cache := [] }

/-- The empty struct `l1BlockTranslator`. -/
structure l1BlockTranslator where
  deriving DecidableEq, Repr

/-- The dynamic value of a non-nil `BlockTranslator` interface: one of the two
implementations the factory can return. -/
inductive BlockTranslator where
  | l1 (t : l1BlockTranslator)
  | arbitrum (t : ArbitrumBlockTranslator)

/-- The tags of the second `case` of the switch in `NewBlockTranslator`. -/
def l1CaseTags (ct : ChainTypes) : List ChainType :=
  ["", ct.ChainCelo, ct.ChainGnosis, ct.ChainKroma, ct.ChainMetis,
    ct.ChainOptimismBedrock, ct.ChainSei, ct.ChainScroll, ct.ChainWeMix,
    ct.ChainXLayer, ct.ChainZkEvm, ct.ChainZkSync, ct.ChainZircuit]

/-- The tags the switch in `NewBlockTranslator` names: the Arbitrum tag of its
first `case` and the tags of its second. -/
def declaredTags (ct : ChainTypes) : List ChainType :=
  ct.ChainArbitrum :: l1CaseTags ct

/-- The function `NewBlockTranslator`. The result is an interface value, `none`
being nil. The second case falls through to `default`. -/
def NewBlockTranslator (ct : ChainTypes) (cfg : Config) (client : ChainClient)
    (lggr : Logger) : Option BlockTranslator :=
  if cfg.ChainType = ct.ChainArbitrum then
    some (.arbitrum (NewArbitrumBlockTranslator client lggr))
  else if cfg.ChainType ∈ l1CaseTags ct then
    some (.l1 {})
  else
    some (.l1 {})

/-- The method `(*l1BlockTranslator).NumberToQueryRange`; `changedInL1Block` is
a `uint64`. -/
def l1BlockTranslator.NumberToQueryRange (_ : l1BlockTranslator) (_ : Context)
    (changedInL1Block : Nat) : Int × Int :=
  (big.NewInt (int64 changedInL1Block), big.NewInt (int64 changedInL1Block))

/-- The method `(*l1BlockTranslator).OnNewLongestChain`, with an empty body: the
receiver after the call. -/
def l1BlockTranslator.OnNewLongestChain (t : l1BlockTranslator) (_ : Context)
    (_ : Option Head) : l1BlockTranslator :=
  t

/-- Modelled from the spec: the binary search over local heights of the
search-based translator (section 4.3, steps 2 and 3), not among the sources.
It returns the smallest local height in `[lo, hi)` whose settlement height
satisfies `p`, and `hi` when there is none. Each probe is one remote call, the
probes are sequential, and a failed call aborts the search with its error. -/
def searchFirst (c : ChainClient) (ctx : Context) (p : Nat → Bool) :
    Nat → Nat → Nat → Except Error Nat
  | 0, lo, _ => .ok lo
  | fuel + 1, lo, hi =>
    if lo < hi then
      match c.GetSettlementHeight ctx ((lo + hi) / 2) with
      | .error err => .error err
      | .ok s =>
        if p s then searchFirst c ctx p fuel lo ((lo + hi) / 2)
        else searchFirst c ctx p fuel ((lo + hi) / 2 + 1) hi
    else .ok lo

/-- Modelled from the spec: the exact cache hit of step 1 of section 4.3. -/
def cacheLookup (cache : List CacheEntry) (emitted : Nat) : Option CacheEntry :=
  cache.find? (fun e => e.emitted == emitted)

/-- Modelled from the spec: the tightly bounding cache hit of step 1 of section
4.3: the entries of the two neighbouring emitted numbers are cached, do not
overlap and leave local heights between them, which are then the range. -/
def cacheBracket (cache : List CacheEntry) (emitted : Nat) : Option (Nat × Nat) :=
  match cacheLookup cache (emitted - 1), cacheLookup cache (emitted + 1) with
  | some below, some above =>
    if 0 < emitted ∧ below.toBlock + 1 < above.fromBlock then
      some (below.toBlock + 1, above.fromBlock - 1)
    else none
  | _, _ => none

/-- Modelled from the spec: the last known local height whose settlement height
was less than the target (step 2 of section 4.3), `0` when the cache knows none. -/
def lastBelow (cache : List CacheEntry) (emitted : Nat) : Nat :=
  ((cache.filter (fun e => e.emitted < emitted)).map (fun e => e.toBlock)).foldl max 0

/-- Modelled from the spec: `NumberToQueryRange` of the search-based translator
(section 4.3), not among the sources. The result is the range or the error, and
the translator with its cache after the call.

1. A cache hit answers without a remote call.
2. Otherwise the search runs over the local heights from the last known height
   below the target up to the current head.
3. It finds the smallest local height whose settlement height is `>= target`
   and the largest one whose settlement height is `<= target`.
4. The range found is cached with the head it was resolved at.

A failed remote call or a cancelled context surfaces as the error and leaves
the cache as it was. When no non-empty bracket exists the answer is the widest
safe bound, from the last height below to the head, and nothing is cached. -/
def ArbitrumBlockTranslator.NumberToQueryRange (a : ArbitrumBlockTranslator)
    (ctx : Context) (emitted : Nat) :
    Except Error (Nat × Nat) × ArbitrumBlockTranslator :=
  match cacheLookup a.cache emitted with
  | some e => (.ok (e.fromBlock, e.toBlock), a)
  | none =>
    match cacheBracket a.cache emitted with
    | some r => (.ok r, a)
    | none =>
      match ctx.Err with
      | some err => (.error err, a)
      | none =>
        match a.client.GetLocalHeight ctx with
        | .error err => (.error err, a)
        | .ok head =>
          let lo := min (lastBelow a.cache emitted) head
          match searchFirst a.client ctx (fun s => emitted ≤ s) (head + 1 - lo) lo
              (head + 1) with
          | .error err => (.error err, a)
          | .ok first =>
            match searchFirst a.client ctx (fun s => emitted < s) (head + 1 - first)
                first (head + 1) with
            | .error err => (.error err, a)
            | .ok next =>
              if first < next then
                (.ok (first, next - 1),
                  { a with cache := ⟨emitted, first, next - 1, head⟩ :: a.cache })
              else
                (.ok (lo, head), a)

/-- The chain client of the end-to-end example of section 8 of the spec: the
head is `head`, the settlement height of the local height `l` is `f l`, and no
call fails. -/
def stepClient (f : Nat → Nat) (head : Nat) : ChainClient :=
  { GetLocalHeight := fun _ => .ok head
    GetSettlementHeight := fun _ l => .ok (f l) }

/-- The values the constants of package `chaintype` have in chainlink-evm; used
as a concrete instance of the parameters. -/
def chaintypeValues : ChainTypes :=
  { ChainArbitrum := "arbitrum"
    ChainCelo := "celo"
    ChainGnosis := "gnosis"
    ChainKroma := "kroma"
    ChainMetis := "metis"
    ChainOptimismBedrock := "optimismBedrock"
    ChainSei := "sei"
    ChainScroll := "scroll"
    ChainWeMix := "wemix"
    ChainXLayer := "xlayer"
    ChainZkEvm := "zkevm"
    ChainZkSync := "zksync"
    ChainZircuit := "zircuit" }

end ocrcommon

namespace changeset

/-- The string type `deployment.ContractType`. -/
abbrev ContractType := String

/-- The 20-byte `common.Address`, as a number. -/
abbrev Address := Nat

/-- The handle `chain.Client`, only passed on to the binding constructors. -/
abbrev OnchainClient := Nat

/-- The fields of `semver.Version` (an external library type). -/
structure Version where
  major : Nat
  minor : Nat
  patch : Nat
  pre : String
  metadata : String
  original : String
  deriving DecidableEq, Repr

/-- The method `Version.String()` of the semver library: `major.minor.patch`,
then `-pre` and `+metadata` when they are not empty. -/
def Version.String (v : Version) : String :=
  toString v.major ++ "." ++ toString v.minor ++ "." ++ toString v.patch
    ++ (if v.pre ≠ "" then "-" ++ v.pre else "")
    ++ (if v.metadata ≠ "" then "+" ++ v.metadata else "")

/-- The variable `deployment.Version1_0_0`, the parsed version `1.0.0`. -/
def Version1_0_0 : Version :=
  { major := 1, minor := 0, patch := 0, pre := "", metadata := "", original := "1.0.0" }

/-- The struct `deployment.TypeAndVersion`; its field `Type` is `Type_` here,
and the label set is a list. -/
structure TypeAndVersion where
  Type_ : ContractType
  Version : Version
  Labels : List String
  deriving DecidableEq, Repr

/-- The constructor `deployment.NewTypeAndVersion`, with an empty label set. -/
def NewTypeAndVersion (t : ContractType) (v : Version) : TypeAndVersion :=
  { Type_ := t, Version := v, Labels := [] }

/-- The map `map[string]deployment.TypeAndVersion` of one chain, as an
association list; a `range` over the map visits the list in order. -/
abbrev AddressMap := List (String × TypeAndVersion)

/-- The interface `deployment.AddressBook`, of which only `AddressesForChain`
is called. -/
structure AddressBook where
  AddressesForChain : Nat → Except Error AddressMap

/-- The fields of `deployment.Chain` the functions read. -/
structure Chain where
  Selector : Nat
  Client : OnchainClient
  deriving DecidableEq, Repr

/-- The struct `bind.CallOpts` (external); `Owner` is only called with nil. -/
structure CallOpts where
  Pending : Bool
  From : Address
  deriving DecidableEq, Repr

/-- The interface `Ownable`, as the methods of a type `T`. -/
structure Ownable (T : Type) where
  Address : T → Address
  Owner : T → Option CallOpts → Except Error changeset.Address

/-- The struct `OwnedContract[T]`; `M` is the external type
`commonchangeset.MCMSWithTimelockState`, held by pointer. -/
structure OwnedContract (M T : Type) where
  McmsContracts : Option M
  Contract : T

/-- The type parameter `T` as the type switches see it: one of the four
generated binding types, or any other type, given by its printed name. -/
inductive ContractKind where
  | KeystoneForwarder
  | CapabilitiesRegistry
  | OCR3Capability
  | WorkflowRegistry
  | other (typeName : String)
  deriving DecidableEq, Repr

/-- What the functions use and the sources do not hold: the contract type
constants, the address conversions of go-ethereum, the MCMS state loader of
package `commonchangeset` and the constructors of the generated bindings. `M`
is the MCMS state type and `I` the type of a contract instance. -/
structure Deps (M I : Type) where
  RBACTimelock : ContractType
  KeystoneForwarder : ContractType
  CapabilitiesRegistry : ContractType
  OCR3Capability : ContractType
  WorkflowRegistry : ContractType
  /-- The function `common.HexToAddress`. -/
  HexToAddress : String → Address
  /-- The method `common.Address.Hex`. -/
  Hex : Address → String
  MaybeLoadMCMSWithTimelockChainState : Chain → AddressMap → Except Error (Option M)
  NewKeystoneForwarder : Address → OnchainClient → Except Error I
  NewCapabilitiesRegistry : Address → OnchainClient → Except Error I
  NewOCR3Capability : Address → OnchainClient → Except Error I
  NewWorkflowRegistry : Address → OnchainClient → Except Error I

/-- The function `GetOwnerTypeAndVersion`. The result `.ok none` is the return
`nil, nil`. The loop returns at the first key that converts to the owner. -/
def GetOwnerTypeAndVersion {M I T : Type} (d : Deps M I) (inst : Ownable T) (contract : T)
    (ab : AddressBook) (chain : Chain) : Except Error (Option TypeAndVersion) :=
  match inst.Owner contract none with
  | .error err => .error ("failed to get contract owner: " ++ err)
  | .ok owner =>
    match ab.AddressesForChain chain.Selector with
    | .error err =>
      .error ("failed to get addresses for chain " ++ toString chain.Selector ++ ": " ++ err)
    | .ok addresses =>
      match addresses.lookup (d.Hex owner) with
      | some tv => .ok (some tv)
      | none =>
        match addresses.find? (fun e => d.HexToAddress e.1 == owner) with
        | some e => .ok (some e.2)
        | none => .ok none

/-- The function `NewOwnable`. -/
def NewOwnable {M I T : Type} (d : Deps M I) (inst : Ownable T) (contract : T)
    (ab : AddressBook) (chain : Chain) : Except Error (OwnedContract M T) :=
  let timelockTV := NewTypeAndVersion d.RBACTimelock Version1_0_0
  match ab.AddressesForChain chain.Selector with
  | .error err => .error ("failed to get addresses: " ++ err)
  | .ok addresses =>
    match GetOwnerTypeAndVersion d inst contract ab chain with
    | .error err => .error ("failed to get owner type and version: " ++ err)
    | .ok ownerTV =>
      if (match ownerTV with
          | some tv =>
            tv.Type_ == timelockTV.Type_ && tv.Version.String == timelockTV.Version.String
          | none => false) then
        match d.MaybeLoadMCMSWithTimelockChainState chain addresses with
        | .error mcmsErr => .error ("failed to load MCMS state: " ++ mcmsErr)
        | .ok stateMCMS => .ok { McmsContracts := stateMCMS, Contract := contract }
      else
        .ok { McmsContracts := none, Contract := contract }

/-- The type switch at the head of `GetOwnableContract`; `none` is its
`default` branch. -/
def contractTypeOf {M I : Type} (d : Deps M I) : ContractKind → Option ContractType
  | .KeystoneForwarder => some d.KeystoneForwarder
  | .CapabilitiesRegistry => some d.CapabilitiesRegistry
  | .OCR3Capability => some d.OCR3Capability
  | .WorkflowRegistry => some d.WorkflowRegistry
  | .other _ => none

/-- The verb `%T` applied to `*new(T)`. -/
def ContractKind.typeName : ContractKind → String
  | .KeystoneForwarder => "*forwarder.KeystoneForwarder"
  | .CapabilitiesRegistry => "*capabilities_registry.CapabilitiesRegistry"
  | .OCR3Capability => "*ocr3_capability.OCR3Capability"
  | .WorkflowRegistry => "*workflow_registry.WorkflowRegistry"
  | .other n => n

/-- The function `createContractInstance`. -/
def createContractInstance {M I : Type} (d : Deps M I) (T : ContractKind) (addr : String)
    (chain : Chain) : Except Error I :=
  match (match T with
      | .KeystoneForwarder =>
        some (d.NewKeystoneForwarder (d.HexToAddress addr) chain.Client)
      | .CapabilitiesRegistry =>
        some (d.NewCapabilitiesRegistry (d.HexToAddress addr) chain.Client)
      | .OCR3Capability => some (d.NewOCR3Capability (d.HexToAddress addr) chain.Client)
      | .WorkflowRegistry => some (d.NewWorkflowRegistry (d.HexToAddress addr) chain.Client)
      | .other _ => none) with
  | none => .error "unsupported contract type for instance creation"
  | some (.error err) => .error ("failed to create contract instance: " ++ err)
  | some (.ok c) => .ok c

/-- The `range` loop of `GetOwnableContract` over the entries still to visit,
from the current `foundAddr` and `contractCount`: the error of its early
return, or the two variables after the loop. -/
def countLoop (contractType : ContractType) :
    AddressMap → String → Nat → Except Error (String × Nat)
  | [], foundAddr, contractCount => .ok (foundAddr, contractCount)
  | (addr, tv) :: rest, foundAddr, contractCount =>
    if tv.Type_ = contractType then
      if contractCount + 1 > 1 then
        .error ("multiple contracts of type " ++ contractType
          ++ " found, must provide a `targetAddr`")
      else countLoop contractType rest addr (contractCount + 1)
    else countLoop contractType rest foundAddr contractCount

/-- The function `GetOwnableContract`; `targetAddr` is a `*string`. -/
def GetOwnableContract {M I : Type} (d : Deps M I) (T : ContractKind) (ab : AddressBook)
    (chain : Chain) (targetAddr : Option String) : Except Error I :=
  match contractTypeOf d T with
  | none => .error ("unsupported contract type " ++ T.typeName)
  | some contractType =>
    match ab.AddressesForChain chain.Selector with
    | .error err =>
      .error ("failed to get addresses for chain " ++ toString chain.Selector ++ ": " ++ err)
    | .ok addresses =>
      match targetAddr with
      | some addr =>
        match addresses.lookup addr with
        | none => .error ("address " ++ addr ++ " not found in address book")
        | some tv =>
          if tv.Type_ ≠ contractType then
            .error ("address " ++ addr ++ " is not a " ++ contractType ++ ", got " ++ tv.Type_)
          else createContractInstance d T addr chain
      | none =>
        match countLoop contractType addresses "" 0 with
        | .error err => .error err
        | .ok (foundAddr, contractCount) =>
          if contractCount = 0 then
            .error ("no contract of type " ++ contractType ++ " found")
          else createContractInstance d T foundAddr chain

/-- The entries of the map whose contract type is `contractType`. -/
def entriesOfType (contractType : ContractType) (addresses : AddressMap) : AddressMap :=
  addresses.filter (fun e => e.2.Type_ == contractType)

/-- A small instance of the dependencies, over the addresses `1` and `2`
written `"0x01"` and `"0x02"`; a contract instance is the binding type, the
address and the client it was built from. -/
def sampleDeps : Deps String (ContractKind × Address × OnchainClient) :=
  { RBACTimelock := "RBACTimelock"
    KeystoneForwarder := "KeystoneForwarder"
    CapabilitiesRegistry := "CapabilitiesRegistry"
    OCR3Capability := "OCR3Capability"
    WorkflowRegistry := "WorkflowRegistry"
    HexToAddress := fun s => if s = "0x01" then 1 else if s = "0x02" then 2 else 0
    Hex := fun a => if a = 1 then "0x01" else if a = 2 then "0x02" else "0x00"
    MaybeLoadMCMSWithTimelockChainState := fun _ _ => .ok (some "mcms")
    NewKeystoneForwarder := fun a c => .ok (ContractKind.KeystoneForwarder, a, c)
    NewCapabilitiesRegistry := fun a c => .ok (ContractKind.CapabilitiesRegistry, a, c)
    NewOCR3Capability := fun a c => .ok (ContractKind.OCR3Capability, a, c)
    NewWorkflowRegistry := fun a c => .ok (ContractKind.WorkflowRegistry, a, c) }

/-- The address map of the sample chain: a forwarder at `"0x02"` and a timelock
at `"0x01"`. -/
def sampleAddresses : AddressMap :=
  [("0x02", NewTypeAndVersion "KeystoneForwarder" Version1_0_0),
    ("0x01", NewTypeAndVersion "RBACTimelock" Version1_0_0)]

/-- An address book that knows the chain of selector `1` only. -/
def sampleBook : AddressBook :=
  { AddressesForChain := fun sel =>
      if sel = 1 then .ok sampleAddresses else .error "chain not found" }

/-- The chain of selector `1`. -/
def sampleChain : Chain := { Selector := 1, Client := 0 }

/-- Contracts given by their address, all owned by the address `1`. -/
def sampleOwnable : Ownable Nat :=
  { Address := fun c => c
    Owner := fun _ _ => .ok 1 }

end changeset

namespace ocrcommon

theorem int64_of_lt {n : Nat} (h : n < 2 ^ 63) : int64 n = (n : Int) := by
  have h2 : n % 2 ^ 64 = n := Nat.mod_eq_of_lt (by omega)
  unfold int64
  rw [h2, if_pos h]

theorem int64_of_ge {n : Nat} (h : 2 ^ 63 ≤ n) (h64 : n < 2 ^ 64) :
    int64 n = (n : Int) - 2 ^ 64 := by
  have h2 : n % 2 ^ 64 = n := Nat.mod_eq_of_lt h64
  unfold int64
  rw [h2, if_neg (by omega)]

end ocrcommon

namespace ocrcommon

/-! ## The identity translator -/

theorem l1_NumberToQueryRange_of_lt (t : l1BlockTranslator) (ctx : Context) {n : Nat}
    (h : n < 2 ^ 63) : t.NumberToQueryRange ctx n = ((n : Int), (n : Int)) := by
  simp only [l1BlockTranslator.NumberToQueryRange, big.NewInt, int64_of_lt h]

theorem l1_NumberToQueryRange_of_ge (t : l1BlockTranslator) (ctx : Context) (n : Nat)
    (h : 2 ^ 63 ≤ n) (h64 : n < 2 ^ 64) :
    t.NumberToQueryRange ctx n = ((n : Int) - 2 ^ 64, (n : Int) - 2 ^ 64) := by
  simp only [l1BlockTranslator.NumberToQueryRange, big.NewInt, int64_of_ge h h64]

/-- C1, at the failing input: for the `uint64` value `2^63` the identity
translator returns the pair `(-2^63, -2^63)`, not `(2^63, 2^63)`: the conversion
`int64(changedInL1Block)` wraps around before `big.NewInt` sees the number. -/
theorem l1_NumberToQueryRange_wraps_at_two_pow_63 (t : l1BlockTranslator) (ctx : Context) :
    t.NumberToQueryRange ctx (2 ^ 63) = (-(2 : Int) ^ 63, -(2 : Int) ^ 63) ∧
      t.NumberToQueryRange ctx (2 ^ 63) ≠ (((2 ^ 63 : Nat) : Int), ((2 ^ 63 : Nat) : Int)) := by
  have h := l1_NumberToQueryRange_of_ge t ctx (2 ^ 63) (le_refl _) (by norm_num)
  constructor
  · rw [h]; norm_num
  · rw [h]
    intro hEq
    have h1 := congrArg Prod.fst hEq
    simp only at h1
    norm_num at h1

/-- C4: for every `uint64` value `n` the pair `(from, to)` the identity
translator returns has `from <= to`; and for every tag other than the Arbitrum
tag the factory returns an identity translator, so its strategy has the same
property. -/
theorem l1_NumberToQueryRange_from_le_to (ct : ChainTypes) (cfg : Config)
    (client : ChainClient) (lggr : Logger) (t : l1BlockTranslator) (ctx : Context)
    (n : Nat) (hn : n < 2 ^ 64) :
    (t.NumberToQueryRange ctx n).1 ≤ (t.NumberToQueryRange ctx n).2 ∧
      (cfg.ChainType ≠ ct.ChainArbitrum →
        ∃ s, NewBlockTranslator ct cfg client lggr = some (BlockTranslator.l1 s) ∧
          (s.NumberToQueryRange ctx n).1 ≤ (s.NumberToQueryRange ctx n).2) := by
  have _ := hn
  refine ⟨le_refl _, fun hne => ⟨{}, ?_, le_refl _⟩⟩
  unfold NewBlockTranslator
  rw [if_neg hne]
  split <;> rfl

/-- C9: `OnNewLongestChain` leaves the identity translator unchanged: after any
sequence of head notifications, with any contexts and heads (nil included), the
translator is the one before them and `NumberToQueryRange` answers as before. -/
theorem l1_OnNewLongestChain_noop (t : l1BlockTranslator)
    (events : List (Context × Option Head)) (ctx : Context) (n : Nat) :
    events.foldl (fun s e => s.OnNewLongestChain e.1 e.2) t = t ∧
      (events.foldl (fun s e => s.OnNewLongestChain e.1 e.2) t).NumberToQueryRange ctx n
        = t.NumberToQueryRange ctx n := by
  have h : events.foldl (fun s e => l1BlockTranslator.OnNewLongestChain s e.1 e.2) t = t := by
    induction events with
    | nil => rfl
    | cons e es ih => simp only [List.foldl_cons, l1BlockTranslator.OnNewLongestChain, ih]
  exact ⟨h, by rw [h]⟩

/-! ## The factory -/

theorem NewBlockTranslator_arbitrum (ct : ChainTypes) (cfg : Config) (client : ChainClient)
    (lggr : Logger) (h : cfg.ChainType = ct.ChainArbitrum) :
    NewBlockTranslator ct cfg client lggr
      = some (BlockTranslator.arbitrum (NewArbitrumBlockTranslator client lggr)) := by
  unfold NewBlockTranslator
  rw [if_pos h]

theorem NewBlockTranslator_other (ct : ChainTypes) (cfg : Config) (client : ChainClient)
    (lggr : Logger) (h : cfg.ChainType ≠ ct.ChainArbitrum) :
    NewBlockTranslator ct cfg client lggr = some (BlockTranslator.l1 {}) := by
  unfold NewBlockTranslator
  rw [if_neg h]
  split <;> rfl

/-- C2: for every tag, so for each tag the switch names (the Arbitrum tag, the
empty tag and the twelve others), the factory returns a non-nil strategy, and
for every tag the switch does not name it returns the identity translator; the
result is a value in every case, there is no error path. -/
theorem NewBlockTranslator_declared_and_unknown (ct : ChainTypes) (client : ChainClient)
    (lggr : Logger) :
    (∀ tag, NewBlockTranslator ct ⟨tag⟩ client lggr ≠ none) ∧
      (∀ tag, tag ∈ declaredTags ct → NewBlockTranslator ct ⟨tag⟩ client lggr ≠ none) ∧
      (∀ tag, tag ∉ declaredTags ct →
        NewBlockTranslator ct ⟨tag⟩ client lggr = some (BlockTranslator.l1 {})) := by
  have hall : ∀ tag, NewBlockTranslator ct ⟨tag⟩ client lggr ≠ none := by
    intro tag
    by_cases h : tag = ct.ChainArbitrum
    · rw [NewBlockTranslator_arbitrum ct ⟨tag⟩ client lggr h]; simp
    · rw [NewBlockTranslator_other ct ⟨tag⟩ client lggr h]; simp
  refine ⟨hall, fun tag _ => hall tag, ?_⟩
  intro tag hnot
  apply NewBlockTranslator_other
  intro h
  exact hnot (by simp [declaredTags, show tag = ct.ChainArbitrum from h])

/-- C3: the factory returns one strategy for every tag and the tag alone picks
it: the search-based translator `NewArbitrumBlockTranslator client lggr`, built
from the client and logger given, exactly when the tag is the Arbitrum tag, and
the identity translator for every other tag, whatever the client and logger. -/
theorem NewBlockTranslator_decided_by_tag (ct : ChainTypes) (cfg : Config)
    (client : ChainClient) (lggr : Logger) :
    (∃ bt, NewBlockTranslator ct cfg client lggr = some bt) ∧
      (NewBlockTranslator ct cfg client lggr
          = some (BlockTranslator.arbitrum (NewArbitrumBlockTranslator client lggr))
        ↔ cfg.ChainType = ct.ChainArbitrum) ∧
      ((NewArbitrumBlockTranslator client lggr).client = client ∧
        (NewArbitrumBlockTranslator client lggr).lggr = lggr) ∧
      (cfg.ChainType ≠ ct.ChainArbitrum →
        ∀ (client2 : ChainClient) (lggr2 : Logger),
          NewBlockTranslator ct cfg client2 lggr2 = some (BlockTranslator.l1 {})) := by
  refine ⟨?_, ?_, ⟨rfl, rfl⟩, ?_⟩
  · by_cases h : cfg.ChainType = ct.ChainArbitrum
    · exact ⟨_, NewBlockTranslator_arbitrum ct cfg client lggr h⟩
    · exact ⟨_, NewBlockTranslator_other ct cfg client lggr h⟩
  · constructor
    · intro hEq
      by_contra h
      rw [NewBlockTranslator_other ct cfg client lggr h] at hEq
      simp at hEq
    · exact NewBlockTranslator_arbitrum ct cfg client lggr
  · intro h client2 lggr2
    exact NewBlockTranslator_other ct cfg client2 lggr2 h

end ocrcommon

namespace ocrcommon

/-! ## The search-based translator -/

theorem searchFirst_congr (c d : ChainClient) (ctx : Context) (p : Nat → Bool) (fuel : Nat) :
    ∀ lo hi : Nat,
      (∀ l, lo ≤ l → l < hi → c.GetSettlementHeight ctx l = d.GetSettlementHeight ctx l) →
      searchFirst c ctx p fuel lo hi = searchFirst d ctx p fuel lo hi := by
  induction fuel with
  | zero => intro lo hi _; rfl
  | succ k ih =>
    intro lo hi h
    unfold searchFirst
    by_cases hlt : lo < hi
    · rw [if_pos hlt, if_pos hlt, h ((lo + hi) / 2) (by omega) (by omega)]
      rw [ih lo ((lo + hi) / 2) (fun l h1 h2 => h l h1 (by omega))]
      rw [ih ((lo + hi) / 2 + 1) hi (fun l h1 h2 => h l (by omega) h2)]
    · rw [if_neg hlt, if_neg hlt]

theorem NumberToQueryRange_congr (a b : ArbitrumBlockTranslator) (ctx : Context)
    (e head : Nat) (hcache : a.cache = b.cache)
    (ha : a.client.GetLocalHeight ctx = .ok head)
    (hb : b.client.GetLocalHeight ctx = .ok head)
    (hs : ∀ l, l ≤ head →
      a.client.GetSettlementHeight ctx l = b.client.GetSettlementHeight ctx l) :
    (a.NumberToQueryRange ctx e).1 = (b.NumberToQueryRange ctx e).1 ∧
      (a.NumberToQueryRange ctx e).2.cache = (b.NumberToQueryRange ctx e).2.cache ∧
      (a.NumberToQueryRange ctx e).2.client = a.client := by
  have hsf : ∀ p fuel lo, searchFirst a.client ctx p fuel lo (head + 1)
      = searchFirst b.client ctx p fuel lo (head + 1) :=
    fun p fuel lo => searchFirst_congr _ _ ctx p fuel lo (head + 1)
      (fun l _ hl => hs l (by omega))
  simp only [ArbitrumBlockTranslator.NumberToQueryRange, hcache, ha, hb, hsf]
  cases cacheLookup b.cache e with
  | some en => exact ⟨rfl, hcache, rfl⟩
  | none =>
    cases cacheBracket b.cache e with
    | some r => exact ⟨rfl, hcache, rfl⟩
    | none =>
      cases ctx.Err with
      | some err => exact ⟨rfl, hcache, rfl⟩
      | none =>
        simp only []
        cases searchFirst b.client ctx (fun s => decide (e ≤ s))
            (head + 1 - min (lastBelow b.cache e) head) (min (lastBelow b.cache e) head)
            (head + 1) with
        | error err => exact ⟨rfl, hcache, rfl⟩
        | ok first =>
          simp only []
          cases searchFirst b.client ctx (fun s => decide (e < s)) (head + 1 - first) first
              (head + 1) with
          | error err => exact ⟨rfl, hcache, rfl⟩
          | ok next =>
            simp only []
            by_cases hlt : first < next
            · simp only [if_pos hlt, and_self]
            · simp only [if_neg hlt, hcache, and_self]

end ocrcommon

namespace ocrcommon

/-- C5: with a chain client whose head is `1000` and whose settlement height is
`local / 5` for every local height in `[0, 1000]`, the strategy the factory
returns for the Arbitrum tag is the search-based translator, and from its
fresh state it resolves the emitted number `40` to the range `[200, 204]` and
the emitted number `0` to the range `[0, 4]`; the answers are the same when the
other number was resolved first. -/
theorem arbitrum_resolves_step_example (ct : ChainTypes) (client : ChainClient)
    (lggr : Logger) (ctx : Context) (hctx : ctx.Err = none)
    (hhead : client.GetLocalHeight ctx = .ok 1000)
    (hs : ∀ l, l ≤ 1000 → client.GetSettlementHeight ctx l = .ok (l / 5)) :
    ∃ a, NewBlockTranslator ct ⟨ct.ChainArbitrum⟩ client lggr
        = some (BlockTranslator.arbitrum a) ∧
      (a.NumberToQueryRange ctx 40).1 = .ok (200, 204) ∧
      (a.NumberToQueryRange ctx 0).1 = .ok (0, 4) ∧
      ((a.NumberToQueryRange ctx 40).2.NumberToQueryRange ctx 0).1 = .ok (0, 4) ∧
      ((a.NumberToQueryRange ctx 0).2.NumberToQueryRange ctx 40).1 = .ok (200, 204) := by
  obtain ⟨err⟩ := ctx
  simp only at hctx
  subst hctx
  refine ⟨NewArbitrumBlockTranslator client lggr,
    NewBlockTranslator_arbitrum ct _ client lggr rfl, ?_⟩
  have hagree : ∀ l, l ≤ 1000 → client.GetSettlementHeight ⟨none⟩ l
      = (stepClient (fun l => l / 5) 1000).GetSettlementHeight ⟨none⟩ l :=
    fun l hl => hs l hl
  have hb40 := (NumberToQueryRange_congr
    (NewArbitrumBlockTranslator (stepClient (fun l => l / 5) 1000) ⟨""⟩)
    (NewArbitrumBlockTranslator (stepClient (fun l => l / 5) 1000) ⟨""⟩) ⟨none⟩ 40 1000
    rfl rfl rfl (fun _ _ => rfl)).2.2
  have hb0 := (NumberToQueryRange_congr
    (NewArbitrumBlockTranslator (stepClient (fun l => l / 5) 1000) ⟨""⟩)
    (NewArbitrumBlockTranslator (stepClient (fun l => l / 5) 1000) ⟨""⟩) ⟨none⟩ 0 1000
    rfl rfl rfl (fun _ _ => rfl)).2.2
  have h40 := NumberToQueryRange_congr (NewArbitrumBlockTranslator client lggr)
    (NewArbitrumBlockTranslator (stepClient (fun l => l / 5) 1000) ⟨""⟩) ⟨none⟩ 40 1000
    rfl hhead rfl hagree
  have h0 := NumberToQueryRange_congr (NewArbitrumBlockTranslator client lggr)
    (NewArbitrumBlockTranslator (stepClient (fun l => l / 5) 1000) ⟨""⟩) ⟨none⟩ 0 1000
    rfl hhead rfl hagree
  have h40_0 := NumberToQueryRange_congr
    ((NewArbitrumBlockTranslator client lggr).NumberToQueryRange ⟨none⟩ 40).2
    ((NewArbitrumBlockTranslator (stepClient (fun l => l / 5) 1000) ⟨""⟩).NumberToQueryRange
      ⟨none⟩ 40).2 ⟨none⟩ 0 1000
    h40.2.1 (by rw [h40.2.2]; exact hhead) rfl (by rw [h40.2.2, hb40]; exact hagree)
  have h0_40 := NumberToQueryRange_congr
    ((NewArbitrumBlockTranslator client lggr).NumberToQueryRange ⟨none⟩ 0).2
    ((NewArbitrumBlockTranslator (stepClient (fun l => l / 5) 1000) ⟨""⟩).NumberToQueryRange
      ⟨none⟩ 0).2 ⟨none⟩ 40 1000
    h0.2.1 (by rw [h0.2.2]; exact hhead) rfl (by rw [h0.2.2, hb0]; exact hagree)
  refine ⟨?_, ?_, ?_, ?_⟩
  · rw [h40.1]; rfl
  · rw [h0.1]; rfl
  · rw [h40_0.1]; rfl
  · rw [h0_40.1]; rfl

/-- The end-to-end example of C5 at the client `stepClient (· / 5) 1000`. -/
theorem arbitrum_resolves_step_example_witness :
    ∃ a, NewBlockTranslator chaintypeValues ⟨"arbitrum"⟩ (stepClient (fun l => l / 5) 1000)
        ⟨"ocr"⟩ = some (BlockTranslator.arbitrum a) ∧
      (a.NumberToQueryRange ⟨none⟩ 40).1 = .ok (200, 204) ∧
      (a.NumberToQueryRange ⟨none⟩ 0).1 = .ok (0, 4) ∧
      ((a.NumberToQueryRange ⟨none⟩ 40).2.NumberToQueryRange ⟨none⟩ 0).1 = .ok (0, 4) ∧
      ((a.NumberToQueryRange ⟨none⟩ 0).2.NumberToQueryRange ⟨none⟩ 40).1 = .ok (200, 204) :=
  arbitrum_resolves_step_example chaintypeValues (stepClient (fun l => l / 5) 1000) ⟨"ocr"⟩
    ⟨none⟩ rfl rfl (fun _ _ => rfl)

end ocrcommon

namespace changeset

/-! ## GetOwnableContract -/

theorem countLoop_one (contractType : ContractType) :
    ∀ (addresses : AddressMap) (foundAddr : String),
      (entriesOfType contractType addresses = [] →
        countLoop contractType addresses foundAddr 1 = .ok (foundAddr, 1)) ∧
      (1 ≤ (entriesOfType contractType addresses).length →
        countLoop contractType addresses foundAddr 1
          = .error ("multiple contracts of type " ++ contractType
              ++ " found, must provide a `targetAddr`")) := by
  intro addresses
  induction addresses with
  | nil =>
    intro foundAddr
    exact ⟨fun _ => rfl, fun h => by simp [entriesOfType] at h⟩
  | cons e rest ih =>
    intro foundAddr
    obtain ⟨addr, tv⟩ := e
    by_cases hty : tv.Type_ = contractType
    · have hf : entriesOfType contractType ((addr, tv) :: rest)
          = (addr, tv) :: entriesOfType contractType rest := by
        simp [entriesOfType, hty]
      refine ⟨fun h => ?_, fun _ => ?_⟩
      · rw [hf] at h; cases h
      · simp [countLoop, hty]
    · have hf : entriesOfType contractType ((addr, tv) :: rest)
          = entriesOfType contractType rest := by
        simp [entriesOfType, hty]
      rw [hf]
      simp only [countLoop, if_neg hty]
      exact ih foundAddr

theorem countLoop_zero (contractType : ContractType) :
    ∀ (addresses : AddressMap) (foundAddr : String),
      (entriesOfType contractType addresses = [] →
        countLoop contractType addresses foundAddr 0 = .ok (foundAddr, 0)) ∧
      (∀ addr tv, entriesOfType contractType addresses = [(addr, tv)] →
        countLoop contractType addresses foundAddr 0 = .ok (addr, 1)) ∧
      (2 ≤ (entriesOfType contractType addresses).length →
        countLoop contractType addresses foundAddr 0
          = .error ("multiple contracts of type " ++ contractType
              ++ " found, must provide a `targetAddr`")) := by
  intro addresses
  induction addresses with
  | nil =>
    intro foundAddr
    refine ⟨fun _ => rfl, fun addr tv h => ?_, fun h => ?_⟩
    · simp [entriesOfType] at h
    · simp [entriesOfType] at h
  | cons e rest ih =>
    intro foundAddr
    obtain ⟨a, tv⟩ := e
    by_cases hty : tv.Type_ = contractType
    · have hf : entriesOfType contractType ((a, tv) :: rest)
          = (a, tv) :: entriesOfType contractType rest := by
        simp [entriesOfType, hty]
      have hstep : countLoop contractType ((a, tv) :: rest) foundAddr 0
          = countLoop contractType rest a 1 := by
        simp [countLoop, hty]
      rw [hf, hstep]
      refine ⟨fun h => ?_, fun addr tv2 h => ?_, fun h => ?_⟩
      · cases h
      · simp only [List.cons.injEq, Prod.mk.injEq] at h
        obtain ⟨⟨rfl, _⟩, hrest⟩ := h
        exact (countLoop_one contractType rest a).1 hrest
      · apply (countLoop_one contractType rest a).2
        simp only [List.length_cons] at h
        omega
    · have hf : entriesOfType contractType ((a, tv) :: rest)
          = entriesOfType contractType rest := by
        simp [entriesOfType, hty]
      rw [hf]
      simp only [countLoop, if_neg hty]
      exact ih foundAddr

theorem contractTypeOf_of_binding {M I : Type} (d : Deps M I) (T : ContractKind)
    (contractType : ContractType) (ctor : Address → OnchainClient → Except Error I)
    (hT : (T = ContractKind.KeystoneForwarder ∧ contractType = d.KeystoneForwarder ∧
          ctor = d.NewKeystoneForwarder) ∨
        (T = ContractKind.CapabilitiesRegistry ∧ contractType = d.CapabilitiesRegistry ∧
          ctor = d.NewCapabilitiesRegistry) ∨
        (T = ContractKind.OCR3Capability ∧ contractType = d.OCR3Capability ∧
          ctor = d.NewOCR3Capability) ∨
        (T = ContractKind.WorkflowRegistry ∧ contractType = d.WorkflowRegistry ∧
          ctor = d.NewWorkflowRegistry)) :
    contractTypeOf d T = some contractType := by
  rcases hT with ⟨rfl, rfl, _⟩ | ⟨rfl, rfl, _⟩ | ⟨rfl, rfl, _⟩ | ⟨rfl, rfl, _⟩ <;> rfl

theorem createContractInstance_of_binding {M I : Type} (d : Deps M I) (T : ContractKind)
    (contractType : ContractType) (ctor : Address → OnchainClient → Except Error I)
    (addr : String) (chain : Chain)
    (hT : (T = ContractKind.KeystoneForwarder ∧ contractType = d.KeystoneForwarder ∧
          ctor = d.NewKeystoneForwarder) ∨
        (T = ContractKind.CapabilitiesRegistry ∧ contractType = d.CapabilitiesRegistry ∧
          ctor = d.NewCapabilitiesRegistry) ∨
        (T = ContractKind.OCR3Capability ∧ contractType = d.OCR3Capability ∧
          ctor = d.NewOCR3Capability) ∨
        (T = ContractKind.WorkflowRegistry ∧ contractType = d.WorkflowRegistry ∧
          ctor = d.NewWorkflowRegistry)) :
    (∀ c, ctor (d.HexToAddress addr) chain.Client = .ok c →
        createContractInstance d T addr chain = .ok c) ∧
      (∀ err, ctor (d.HexToAddress addr) chain.Client = .error err →
        createContractInstance d T addr chain
          = .error ("failed to create contract instance: " ++ err)) := by
  rcases hT with ⟨rfl, _, rfl⟩ | ⟨rfl, _, rfl⟩ | ⟨rfl, _, rfl⟩ | ⟨rfl, _, rfl⟩ <;>
    exact ⟨fun c h => by simp only [createContractInstance, h],
      fun err h => by simp only [createContractInstance, h]⟩

/-- C6: `GetOwnableContract` with a nil `targetAddr`, a supported type `T` (one
of the four binding types, with its contract type constant and its binding
constructor `ctor`) and an address book whose lookup succeeds: with no entry of
the contract type of `T` it returns the error "no contract of type ... found",
with two or more it returns the error "multiple contracts of type ... found",
so it returns an error whenever the number of such entries is not one; with
exactly one such entry it creates the instance for that entry's address: it
returns the contract the binding constructor of `T` builds at
`HexToAddress addr` on the client of the chain, or that constructor's error,
wrapped. -/
theorem GetOwnableContract_without_target {M I : Type} (d : Deps M I) (T : ContractKind)
    (ab : AddressBook) (chain : Chain) (contractType : ContractType)
    (ctor : Address → OnchainClient → Except Error I) (addresses : AddressMap)
    (hT : (T = ContractKind.KeystoneForwarder ∧ contractType = d.KeystoneForwarder ∧
          ctor = d.NewKeystoneForwarder) ∨
        (T = ContractKind.CapabilitiesRegistry ∧ contractType = d.CapabilitiesRegistry ∧
          ctor = d.NewCapabilitiesRegistry) ∨
        (T = ContractKind.OCR3Capability ∧ contractType = d.OCR3Capability ∧
          ctor = d.NewOCR3Capability) ∨
        (T = ContractKind.WorkflowRegistry ∧ contractType = d.WorkflowRegistry ∧
          ctor = d.NewWorkflowRegistry))
    (hab : ab.AddressesForChain chain.Selector = .ok addresses) :
    ((entriesOfType contractType addresses).length = 0 →
        GetOwnableContract d T ab chain none
          = .error ("no contract of type " ++ contractType ++ " found")) ∧
      (2 ≤ (entriesOfType contractType addresses).length →
        GetOwnableContract d T ab chain none
          = .error ("multiple contracts of type " ++ contractType
              ++ " found, must provide a `targetAddr`")) ∧
      ((entriesOfType contractType addresses).length ≠ 1 →
        ∃ err, GetOwnableContract d T ab chain none = .error err) ∧
      (∀ addr tv, entriesOfType contractType addresses = [(addr, tv)] →
        (∀ c, ctor (d.HexToAddress addr) chain.Client = .ok c →
          GetOwnableContract d T ab chain none = .ok c) ∧
        (∀ err, ctor (d.HexToAddress addr) chain.Client = .error err →
          GetOwnableContract d T ab chain none
            = .error ("failed to create contract instance: " ++ err)) ∧
        GetOwnableContract d T ab chain none = createContractInstance d T addr chain) := by
  have hct := contractTypeOf_of_binding d T contractType ctor hT
  have h0 : (entriesOfType contractType addresses).length = 0 →
      GetOwnableContract d T ab chain none
        = .error ("no contract of type " ++ contractType ++ " found") := by
    intro h
    have hnil : entriesOfType contractType addresses = [] := List.length_eq_zero.mp h
    simp only [GetOwnableContract, hct, hab, (countLoop_zero contractType addresses "").1 hnil,
      if_true]
  have h2 : 2 ≤ (entriesOfType contractType addresses).length →
      GetOwnableContract d T ab chain none
        = .error ("multiple contracts of type " ++ contractType
            ++ " found, must provide a `targetAddr`") := by
    intro h
    simp only [GetOwnableContract, hct, hab, (countLoop_zero contractType addresses "").2.2 h]
  refine ⟨h0, h2, fun hne => ?_, fun addr tv h => ?_⟩
  · by_cases hz : (entriesOfType contractType addresses).length = 0
    · exact ⟨_, h0 hz⟩
    · exact ⟨_, h2 (by omega)⟩
  · have hG : GetOwnableContract d T ab chain none = createContractInstance d T addr chain := by
      simp only [GetOwnableContract, hct, hab,
        (countLoop_zero contractType addresses "").2.1 addr tv h]
      simp
    have hc := createContractInstance_of_binding d T contractType ctor addr chain hT
    exact ⟨fun c hok => by rw [hG]; exact hc.1 c hok,
      fun err herr => by rw [hG]; exact hc.2 err herr, hG⟩

/-- C7: `GetOwnableContract` with a `targetAddr`, a supported type `T` (one of
the four binding types, with its contract type constant and its binding
constructor `ctor`) and an address book whose lookup succeeds looks at that
address alone: it returns an error when the address is no key of the map, and
when the entry under it has a contract type other than that of `T`; otherwise
it creates the instance for that very address, whatever else the map holds: it
returns the contract the binding constructor of `T` builds at
`HexToAddress addr` on the client of the chain, or that constructor's error,
wrapped. -/
theorem GetOwnableContract_with_target {M I : Type} (d : Deps M I) (T : ContractKind)
    (ab : AddressBook) (chain : Chain) (contractType : ContractType)
    (ctor : Address → OnchainClient → Except Error I) (addresses : AddressMap)
    (addr : String)
    (hT : (T = ContractKind.KeystoneForwarder ∧ contractType = d.KeystoneForwarder ∧
          ctor = d.NewKeystoneForwarder) ∨
        (T = ContractKind.CapabilitiesRegistry ∧ contractType = d.CapabilitiesRegistry ∧
          ctor = d.NewCapabilitiesRegistry) ∨
        (T = ContractKind.OCR3Capability ∧ contractType = d.OCR3Capability ∧
          ctor = d.NewOCR3Capability) ∨
        (T = ContractKind.WorkflowRegistry ∧ contractType = d.WorkflowRegistry ∧
          ctor = d.NewWorkflowRegistry))
    (hab : ab.AddressesForChain chain.Selector = .ok addresses) :
    (addr ∉ addresses.map Prod.fst →
        GetOwnableContract d T ab chain (some addr)
          = .error ("address " ++ addr ++ " not found in address book")) ∧
      (∀ tv, addresses.lookup addr = some tv → tv.Type_ ≠ contractType →
        GetOwnableContract d T ab chain (some addr)
          = .error ("address " ++ addr ++ " is not a " ++ contractType ++ ", got "
              ++ tv.Type_)) ∧
      (∀ tv, addresses.lookup addr = some tv → tv.Type_ = contractType →
        (∀ c, ctor (d.HexToAddress addr) chain.Client = .ok c →
          GetOwnableContract d T ab chain (some addr) = .ok c) ∧
        (∀ err, ctor (d.HexToAddress addr) chain.Client = .error err →
          GetOwnableContract d T ab chain (some addr)
            = .error ("failed to create contract instance: " ++ err)) ∧
        GetOwnableContract d T ab chain (some addr)
          = createContractInstance d T addr chain) := by
  have hct := contractTypeOf_of_binding d T contractType ctor hT
  refine ⟨fun hkey => ?_, fun tv hl hne => ?_, fun tv hl heq => ?_⟩
  · have hnone : addresses.lookup addr = none := by
      rw [List.lookup_eq_none_iff]
      intro p hp
      simp only [bne_iff_ne, ne_eq]
      intro h
      exact hkey (List.mem_map.mpr ⟨p, hp, h.symm⟩)
    simp only [GetOwnableContract, hct, hab, hnone]
  · simp only [GetOwnableContract, hct, hab, hl, if_pos hne]
  · have hG : GetOwnableContract d T ab chain (some addr)
        = createContractInstance d T addr chain := by
      simp only [GetOwnableContract, hct, hab, hl, heq, ne_eq, not_true_eq_false, if_false]
    have hc := createContractInstance_of_binding d T contractType ctor addr chain hT
    exact ⟨fun c hok => by rw [hG]; exact hc.1 c hok,
      fun err herr => by rw [hG]; exact hc.2 err herr, hG⟩

end changeset

namespace changeset

/-! ## NewOwnable -/

theorem Version1_0_0_String : Version1_0_0.String = "1.0.0" := by decide

theorem GetOwnerTypeAndVersion_ok {M I T : Type} (d : Deps M I) (inst : Ownable T)
    (contract : T) (ab : AddressBook) (chain : Chain) (addresses : AddressMap)
    (owner : Address) (hab : ab.AddressesForChain chain.Selector = .ok addresses)
    (hown : inst.Owner contract none = .ok owner) :
    (∀ tv, addresses.lookup (d.Hex owner) = some tv →
        GetOwnerTypeAndVersion d inst contract ab chain = .ok (some tv)) ∧
      (∀ e, addresses.lookup (d.Hex owner) = none →
        addresses.find? (fun e => d.HexToAddress e.1 == owner) = some e →
        GetOwnerTypeAndVersion d inst contract ab chain = .ok (some e.2)) ∧
      (addresses.lookup (d.Hex owner) = none →
        addresses.find? (fun e => d.HexToAddress e.1 == owner) = none →
        GetOwnerTypeAndVersion d inst contract ab chain = .ok none) := by
  refine ⟨fun tv hl => ?_, fun e hl hf => ?_, fun hl hf => ?_⟩
  · simp only [GetOwnerTypeAndVersion, hown, hab, hl]
  · simp only [GetOwnerTypeAndVersion, hown, hab, hl, hf]
  · simp only [GetOwnerTypeAndVersion, hown, hab, hl, hf]

theorem owner_absent {M I : Type} (d : Deps M I) (addresses : AddressMap) (owner : Address)
    (hno : ∀ e ∈ addresses, e.1 ≠ d.Hex owner ∧ d.HexToAddress e.1 ≠ owner) :
    addresses.lookup (d.Hex owner) = none ∧
      addresses.find? (fun e => d.HexToAddress e.1 == owner) = none := by
  constructor
  · rw [List.lookup_eq_none_iff]
    intro p hp
    simp only [bne_iff_ne, ne_eq]
    exact fun h => (hno p hp).1 h.symm
  · rw [List.find?_eq_none]
    intro e he
    simp only [beq_iff_eq]
    exact (hno e he).2

theorem NewOwnable_of_owner_entry {M I T : Type} (d : Deps M I) (inst : Ownable T)
    (contract : T) (ab : AddressBook) (chain : Chain) (addresses : AddressMap)
    (ownerTV : Option TypeAndVersion)
    (hab : ab.AddressesForChain chain.Selector = .ok addresses)
    (hget : GetOwnerTypeAndVersion d inst contract ab chain = .ok ownerTV) :
    (∀ tv, ownerTV = some tv → tv.Type_ = d.RBACTimelock → tv.Version.String = "1.0.0" →
        (∀ err, d.MaybeLoadMCMSWithTimelockChainState chain addresses = .error err →
          NewOwnable d inst contract ab chain
            = .error ("failed to load MCMS state: " ++ err)) ∧
        (∀ st, d.MaybeLoadMCMSWithTimelockChainState chain addresses = .ok st →
          NewOwnable d inst contract ab chain
            = .ok { McmsContracts := st, Contract := contract })) ∧
      (∀ tv, ownerTV = some tv →
        ¬ (tv.Type_ = d.RBACTimelock ∧ tv.Version.String = "1.0.0") →
        NewOwnable d inst contract ab chain
          = .ok { McmsContracts := none, Contract := contract }) ∧
      (ownerTV = none →
        NewOwnable d inst contract ab chain
          = .ok { McmsContracts := none, Contract := contract }) := by
  refine ⟨fun tv htv hty hver => ?_, fun tv htv hntl => ?_, fun hnone => ?_⟩
  · subst htv
    have hcond : (tv.Type_ == (NewTypeAndVersion d.RBACTimelock Version1_0_0).Type_ &&
        tv.Version.String == (NewTypeAndVersion d.RBACTimelock Version1_0_0).Version.String)
        = true := by
      simp [NewTypeAndVersion, hty, hver, Version1_0_0_String]
    constructor
    · intro err hload
      simp only [NewOwnable, hab, hget, hcond, if_true, hload]
    · intro st hload
      simp only [NewOwnable, hab, hget, hcond, if_true, hload]
  · subst htv
    have hcond : (tv.Type_ == (NewTypeAndVersion d.RBACTimelock Version1_0_0).Type_ &&
        tv.Version.String
          == (NewTypeAndVersion d.RBACTimelock Version1_0_0).Version.String) = false := by
      simp only [NewTypeAndVersion, Version1_0_0_String]
      by_contra hc
      simp only [Bool.not_eq_false, Bool.and_eq_true, beq_iff_eq] at hc
      exact hntl ⟨hc.1, hc.2⟩
    simp only [NewOwnable, hab, hget, hcond, Bool.false_eq_true, if_false]
  · subst hnone
    simp only [NewOwnable, hab, hget, Bool.false_eq_true, if_false]

/-- C8: `NewOwnable` returns an error when the address-book lookup fails and
when the owner lookup fails. When both succeed, the owner's entry `tv` is the
entry of the address book under the key `owner.Hex()` or, when there is none,
the first entry whose key converts to the owner. If that entry has type
`RBACTimelock` and version `1.0.0`, the MCMS state is loaded from the chain and
the addresses of the book: a failed load is returned as an error and a
successful one gives the `OwnedContract` holding the loaded state and the
contract given. If the entry has another type or version, or the owner has no
entry in the book, the result is the `OwnedContract` with a nil
`McmsContracts` and the contract given. -/
theorem NewOwnable_result {M I T : Type} (d : Deps M I) (inst : Ownable T) (contract : T)
    (ab : AddressBook) (chain : Chain) :
    (∀ err, ab.AddressesForChain chain.Selector = .error err →
        NewOwnable d inst contract ab chain = .error ("failed to get addresses: " ++ err)) ∧
      (∀ addresses err, ab.AddressesForChain chain.Selector = .ok addresses →
        inst.Owner contract none = .error err →
        NewOwnable d inst contract ab chain
          = .error ("failed to get owner type and version: "
              ++ ("failed to get contract owner: " ++ err))) ∧
      (∀ addresses owner, ab.AddressesForChain chain.Selector = .ok addresses →
        inst.Owner contract none = .ok owner →
        (∀ tv,
          (addresses.lookup (d.Hex owner) = some tv ∨
            (addresses.lookup (d.Hex owner) = none ∧
              ∃ e, addresses.find? (fun e => d.HexToAddress e.1 == owner) = some e ∧
                e.2 = tv)) →
          (tv.Type_ = d.RBACTimelock ∧ tv.Version.String = "1.0.0" →
            (∀ err, d.MaybeLoadMCMSWithTimelockChainState chain addresses = .error err →
              NewOwnable d inst contract ab chain
                = .error ("failed to load MCMS state: " ++ err)) ∧
            (∀ st, d.MaybeLoadMCMSWithTimelockChainState chain addresses = .ok st →
              NewOwnable d inst contract ab chain
                = .ok { McmsContracts := st, Contract := contract })) ∧
          (¬ (tv.Type_ = d.RBACTimelock ∧ tv.Version.String = "1.0.0") →
            NewOwnable d inst contract ab chain
              = .ok { McmsContracts := none, Contract := contract })) ∧
        (addresses.lookup (d.Hex owner) = none →
          addresses.find? (fun e => d.HexToAddress e.1 == owner) = none →
          NewOwnable d inst contract ab chain
            = .ok { McmsContracts := none, Contract := contract }) ∧
        ((∀ e ∈ addresses, e.1 ≠ d.Hex owner ∧ d.HexToAddress e.1 ≠ owner) →
          NewOwnable d inst contract ab chain
            = .ok { McmsContracts := none, Contract := contract })) := by
  refine ⟨fun err hab => ?_, fun addresses err hab hown => ?_,
    fun addresses owner hab hown => ?_⟩
  · simp only [NewOwnable, hab]
  · simp only [NewOwnable, hab, GetOwnerTypeAndVersion, hown]
  · have hg := GetOwnerTypeAndVersion_ok d inst contract ab chain addresses owner hab hown
    have habsent : addresses.lookup (d.Hex owner) = none →
        addresses.find? (fun e => d.HexToAddress e.1 == owner) = none →
        NewOwnable d inst contract ab chain
          = .ok { McmsContracts := none, Contract := contract } :=
      fun hl hf =>
        (NewOwnable_of_owner_entry d inst contract ab chain addresses none hab
          (hg.2.2 hl hf)).2.2 rfl
    refine ⟨fun tv hentry => ?_, habsent, fun hno => ?_⟩
    · have hget : GetOwnerTypeAndVersion d inst contract ab chain = .ok (some tv) := by
        rcases hentry with hl | ⟨hl, e, hf, rfl⟩
        · exact hg.1 tv hl
        · exact hg.2.1 e hl hf
      have hn := NewOwnable_of_owner_entry d inst contract ab chain addresses (some tv) hab hget
      exact ⟨fun htl => hn.1 tv rfl htl.1 htl.2, fun hntl => hn.2.1 tv rfl hntl⟩
    · obtain ⟨hl, hf⟩ := owner_absent d addresses owner hno
      exact habsent hl hf

end changeset

namespace ocrcommon

/-! ## Instances -/

/-- The property of C4 at the largest `uint64` and the empty tag. -/
theorem l1_NumberToQueryRange_from_le_to_witness :
    2 ^ 64 - 1 < 2 ^ 64 ∧
      ((({} : l1BlockTranslator).NumberToQueryRange ⟨none⟩ (2 ^ 64 - 1)).1
          ≤ (({} : l1BlockTranslator).NumberToQueryRange ⟨none⟩ (2 ^ 64 - 1)).2 ∧
        (("" : String) ≠ chaintypeValues.ChainArbitrum →
          ∃ s, NewBlockTranslator chaintypeValues ⟨""⟩ (stepClient (fun l => l / 5) 1000)
              ⟨"ocr"⟩ = some (BlockTranslator.l1 s) ∧
            (s.NumberToQueryRange ⟨none⟩ (2 ^ 64 - 1)).1
              ≤ (s.NumberToQueryRange ⟨none⟩ (2 ^ 64 - 1)).2)) :=
  ⟨by norm_num,
    l1_NumberToQueryRange_from_le_to chaintypeValues ⟨""⟩ (stepClient (fun l => l / 5) 1000)
      ⟨"ocr"⟩ {} ⟨none⟩ (2 ^ 64 - 1) (by norm_num)⟩

/-- The property of C2 at the empty tag and at a tag the switch does not name. -/
theorem NewBlockTranslator_declared_and_unknown_witness :
    NewBlockTranslator chaintypeValues ⟨""⟩ (stepClient (fun l => l / 5) 1000) ⟨"ocr"⟩ ≠ none ∧
      NewBlockTranslator chaintypeValues ⟨"astar"⟩ (stepClient (fun l => l / 5) 1000) ⟨"ocr"⟩
        = some (BlockTranslator.l1 {}) :=
  ⟨(NewBlockTranslator_declared_and_unknown chaintypeValues (stepClient (fun l => l / 5) 1000)
      ⟨"ocr"⟩).2.1 "" (by decide),
    (NewBlockTranslator_declared_and_unknown chaintypeValues (stepClient (fun l => l / 5) 1000)
      ⟨"ocr"⟩).2.2 "astar" (by decide)⟩

/-- The property of C3 at the Celo tag: the identity translator for any client
and logger. -/
theorem NewBlockTranslator_decided_by_tag_witness :
    ∀ (client2 : ChainClient) (lggr2 : Logger),
      NewBlockTranslator chaintypeValues ⟨"celo"⟩ client2 lggr2
        = some (BlockTranslator.l1 {}) :=
  (NewBlockTranslator_decided_by_tag chaintypeValues ⟨"celo"⟩
    (stepClient (fun l => l / 5) 1000) ⟨"ocr"⟩).2.2.2 (by decide)

end ocrcommon

namespace changeset

/-! ## Instances -/

/-- The property of C6 on the sample address book: its one forwarder, at
`"0x02"`, is found and bound at the address `2` on the client of the chain. -/
theorem GetOwnableContract_without_target_witness :
    GetOwnableContract sampleDeps ContractKind.KeystoneForwarder sampleBook sampleChain none
      = .ok (ContractKind.KeystoneForwarder, 2, 0) :=
  ((GetOwnableContract_without_target sampleDeps ContractKind.KeystoneForwarder sampleBook
    sampleChain "KeystoneForwarder" sampleDeps.NewKeystoneForwarder sampleAddresses
    (Or.inl ⟨rfl, rfl, rfl⟩) rfl).2.2.2 "0x02"
    (NewTypeAndVersion "KeystoneForwarder" Version1_0_0) (by decide)).1
    (ContractKind.KeystoneForwarder, 2, 0) rfl

/-- The property of C7 on the sample address book: the forwarder at the target
`"0x02"` is bound at the address `2` on the client of the chain. -/
theorem GetOwnableContract_with_target_witness :
    GetOwnableContract sampleDeps ContractKind.KeystoneForwarder sampleBook sampleChain
        (some "0x02")
      = .ok (ContractKind.KeystoneForwarder, 2, 0) :=
  ((GetOwnableContract_with_target sampleDeps ContractKind.KeystoneForwarder sampleBook
    sampleChain "KeystoneForwarder" sampleDeps.NewKeystoneForwarder sampleAddresses "0x02"
    (Or.inl ⟨rfl, rfl, rfl⟩) rfl).2.2
    (NewTypeAndVersion "KeystoneForwarder" Version1_0_0) (by decide) (by decide)).1
    (ContractKind.KeystoneForwarder, 2, 0) rfl

/-- The property of C8 on the sample address book: the owner `1` has the
timelock entry under `"0x01"`, so the loaded MCMS state is returned with the
contract. -/
theorem NewOwnable_result_witness :
    NewOwnable sampleDeps sampleOwnable 2 sampleBook sampleChain
      = .ok { McmsContracts := some "mcms", Contract := 2 } :=
  ((((NewOwnable_result sampleDeps sampleOwnable 2 sampleBook sampleChain).2.2
      sampleAddresses 1 rfl rfl).1 (NewTypeAndVersion "RBACTimelock" Version1_0_0)
      (Or.inl rfl)).1 ⟨rfl, Version1_0_0_String⟩).2 (some "mcms") rfl

end changeset
